import Mathlib

/-!
Verification of the BRAID GRD engine (braid-dspy).

This file shallowly embeds the diagram tokenizer/validator of
`src/braid/utils.py`, the quality-metrics engine of
`src/braid/optimizer.py` (class `GRDMetrics`), and — following the
spec for `braid/parser.py`, which is referenced by the sources but not
itself part of the source tree — the graph builder and analyzer
(`MermaidParser.parse`, `GRDStructure` with its derived sets and
execution order).

Scores are modelled over `ℚ`; the Python sources use IEEE doubles, but
every constant involved (0.1 .. 0.5, 1.0) and every combination the
spec talks about is treated as exact arithmetic, which is the spec's
own reading of the score formulas.

Python's `re` semantics for the three fixed patterns of `utils.py` are
embedded directly as scanning functions over `List Char`:
  * `\w` is modelled as ASCII alphanumeric or underscore,
    `\s` as ' ', '\t', '\n', '\r', '\x0b', '\x0c' (inputs of interest
    are ASCII);
  * greedy `\w+` / `\s*` never need to backtrack in these patterns
    (no following atom can match a word/space character), so maximal
    munch is exact;
  * lazy `.*?\]` is "scan to the first closing bracket, failing on a
    newline" ('.' does not match '\n': no DOTALL flag is passed);
  * `re.finditer` tries every start position left to right and resumes
    after the end of each match; `re.search` is the corresponding
    existence check.
-/

/-- Python `\w` (ASCII fragment): alphanumeric or underscore. -/
def isWordChar (c : Char) : Bool := c.isAlphanum || c == '_'

/-- Python `\s` (ASCII fragment): space, tab, newline, carriage return,
vertical tab, form feed. -/
def isSpaceChar (c : Char) : Bool :=
  c == ' ' || c == '\t' || c == '\n' || c == '\r' || c == '\x0B' || c == '\x0C'

/-- Literal pattern match: the first list is a prefix of the second. -/
def litMatch : List Char → List Char → Bool
  | [], _ => true
  | _ :: _, [] => false
  | p :: ps, c :: cs => p == c && litMatch ps cs

/-- Matching `\s*(graph|flowchart)` at a given position: skip whitespace
(greedily; this may cross newlines, exactly as Python `\s*` does), then
require the literal `graph` or `flowchart`. -/
def keywordFrom (cs : List Char) : Bool :=
  litMatch "graph".data (cs.dropWhile isSpaceChar) ||
  litMatch "flowchart".data (cs.dropWhile isSpaceChar)

/-- Positions just after a `'\n'`: the non-initial `^` anchors of
`re.MULTILINE`. -/
def mlSearchGo : List Char → Bool
  | [] => false
  | c :: rest => (c == '\n' && keywordFrom rest) || mlSearchGo rest

/-- `re.search(r"^\s*(graph|flowchart)", code, re.MULTILINE)`:
the pattern must match at the start of the text or just after some
newline. -/
def mlSearch (cs : List Char) : Bool :=
  keywordFrom cs || mlSearchGo cs

/-- Split a character list into its lines (separator `'\n'`), returning
(first line, remaining lines). Used for the spec-level reading of the
multiline keyword search ("on some line ..."). -/
def splitLinesCore : List Char → List Char × List (List Char)
  | [] => ([], [])
  | c :: cs =>
    let p := splitLinesCore cs
    if c = '\n' then ([], p.1 :: p.2) else (c :: p.1, p.2)

/-- All lines of a character list. -/
def splitLines (cs : List Char) : List (List Char) :=
  (splitLinesCore cs).1 :: (splitLinesCore cs).2

/-- Maximal run of word characters at the head (Python greedy `\w+`,
which never backtracks in the patterns at hand), plus the rest. -/
def takeWord : List Char → List Char × List Char
  | [] => ([], [])
  | c :: cs =>
    if isWordChar c then
      let p := takeWord cs
      (c :: p.1, p.2)
    else ([], c :: cs)

/-- Maximal run of whitespace at the head (Python greedy `\s*`). -/
def dropSpaces : List Char → List Char
  | [] => []
  | c :: cs => if isSpaceChar c then dropSpaces cs else c :: cs

/-- Lazy `.*?` up to a closing bracket: consume characters up to the
first occurrence of `close`, failing at a newline ('.' does not match
'\n') or at the end of input. Returns (label text, rest after the
closing bracket). -/
def takeLabel (close : Char) : List Char → Option (List Char × List Char)
  | [] => none
  | c :: cs =>
    if c == close then some ([], cs)
    else if c == '\n' then none
    else
      match takeLabel close cs with
      | some (l, r) => some (c :: l, r)
      | none => none

/-- A raw node-declaration match: captured identifier and raw (unstripped)
label text. The bracket style (square/round/curly) determines only the
decorative shape-kind (spec §3, §9), which nothing downstream consumes,
so it is not recorded. -/
structure RawNode where
  id : String
  rawLabel : List Char
deriving DecidableEq, Repr

/-- An edge match: `(\w+)\s*(-->|--)\s*(\w+)` captured as source id,
target id, and kind (`directed` is true for `-->`, false for `--`,
mirroring `"directed" if "-->" in match.group(2) else "undirected"`). -/
structure Edge where
  src : String
  tgt : String
  directed : Bool
deriving DecidableEq, Repr

/-- Attempt the node-declaration alternation
`(\w+)\s*\[(.*?)\]|(\w+)\s*\((.*?)\)|(\w+)\s*\{(.*?)\}` at the current
position. All three alternatives share the `\w+\s*` head and are told
apart by the (distinct) opening bracket, so trying them in order is the
same as branching on that character. Returns the match and the rest of
the input after the match. -/
def matchNodeAt (cs : List Char) : Option (RawNode × List Char) :=
  match takeWord cs with
  | ([], _) => none
  | (w, rest) =>
    match dropSpaces rest with
    | '[' :: after =>
      match takeLabel ']' after with
      | some (l, r) => some (⟨String.mk w, l⟩, r)
      | none => none
    | '(' :: after =>
      match takeLabel ')' after with
      | some (l, r) => some (⟨String.mk w, l⟩, r)
      | none => none
    | '{' :: after =>
      match takeLabel '}' after with
      | some (l, r) => some (⟨String.mk w, l⟩, r)
      | none => none
    | _ => none

/-- Attempt the edge pattern `(\w+)\s*(-->|--)\s*(\w+)` at the current
position. `-->` is tried before `--`; if `-->` matches but no target
identifier follows, the `--` alternative would face `'>'` where a word
character is required, so it fails as well — returning `none` without
retrying is exact. -/
def matchEdgeAt (cs : List Char) : Option (Edge × List Char) :=
  match takeWord cs with
  | ([], _) => none
  | (w1, rest) =>
    match dropSpaces rest with
    | '-' :: '-' :: '>' :: after =>
      match takeWord (dropSpaces after) with
      | ([], _) => none
      | (w2, rest2) => some (⟨String.mk w1, String.mk w2, true⟩, rest2)
    | '-' :: '-' :: after =>
      match takeWord (dropSpaces after) with
      | ([], _) => none
      | (w2, rest2) => some (⟨String.mk w1, String.mk w2, false⟩, rest2)
    | _ => none

/-- `re.finditer` for the node pattern: try each position left to right,
resuming after the end of every match. The fuel is the remaining input
length; every step either advances one character or consumes a whole
match (at least three characters), so fuel equal to the input length
never runs out and the loop is the unbounded finditer scan. -/
def scanNodesGo : Nat → List Char → List RawNode
  | 0, _ => []
  | _ + 1, [] => []
  | fuel + 1, c :: rest =>
    match matchNodeAt (c :: rest) with
    | some (t, r) => t :: scanNodesGo fuel r
    | none => scanNodesGo fuel rest

/-- All node-declaration matches of a text, in match order. -/
def scanNodes (cs : List Char) : List RawNode :=
  scanNodesGo cs.length cs

/-- `re.finditer` for the edge pattern (same fuel discipline as
`scanNodesGo`). -/
def scanEdgesGo : Nat → List Char → List Edge
  | 0, _ => []
  | _ + 1, [] => []
  | fuel + 1, c :: rest =>
    match matchEdgeAt (c :: rest) with
    | some (e, r) => e :: scanEdgesGo fuel r
    | none => scanEdgesGo fuel rest

/-- All edge matches of a text, in match order. -/
def scanEdges (cs : List Char) : List Edge :=
  scanEdgesGo cs.length cs

/-- One alternative of the validator pattern
`\w+\s*\[.*?\]|\w+\s*\(.*?\)|\w+\s*\{.*?\}|\w+\s*-->|\w+\s*--`
matches at this position. The two connector alternatives are subsumed
(for existence) by `\w+\s*--`, since `-->` begins with `--`. -/
def valAt (cs : List Char) : Bool :=
  (matchNodeAt cs).isSome ||
  (match takeWord cs with
   | ([], _) => false
   | (_, rest) =>
     match dropSpaces rest with
     | '-' :: '-' :: _ => true
     | _ => false)

/-- `re.search` for the validator's node-or-edge pattern: some position
admits a match. -/
def hasPattern : List Char → Bool
  | [] => false
  | c :: rest => valAt (c :: rest) || hasPattern rest

/-- Embedding of `validate_mermaid_syntax` (src/braid/utils.py:30-51):
reject empty input, then require the multiline keyword declaration and
at least one node-or-edge pattern. -/
def validate_mermaid_syntax (mermaid_code : String) : Bool :=
  !mermaid_code.data.isEmpty &&
  mlSearch mermaid_code.data &&
  hasPattern mermaid_code.data

/-- A parsed node: identifier and stripped label, the two fields
`parse_grd_structure` records (src/braid/utils.py:72). -/
structure Node where
  id : String
  label : String
deriving DecidableEq, Repr

/-- Python `str.strip()`: drop whitespace from both ends. -/
def stripChars (l : List Char) : List Char :=
  ((l.dropWhile isSpaceChar).reverse.dropWhile isSpaceChar).reverse

/-- The dictionary returned by `parse_grd_structure`
(src/braid/utils.py:85): nodes, edges, and their counts. -/
structure ParsedStructure where
  nodes : List Node
  edges : List Edge
  node_count : Nat
  edge_count : Nat
deriving DecidableEq, Repr

/-- Embedding of `parse_grd_structure` (src/braid/utils.py:54-85).
The node loop computes `match.group(2) or match.group(4) or
match.group(6)`; when the matched label is the empty string that
expression is `None` (empty strings are falsy and the other groups did
not participate), so `node_label.strip()` raises `AttributeError`.
`none` models that escape; otherwise the labels are stripped and the
dictionary of nodes, edges and counts is returned. -/
def parse_grd_structure (mermaid_code : String) : Option ParsedStructure :=
  let toks := scanNodes mermaid_code.data
  if toks.any (fun tk => tk.rawLabel.isEmpty) then none
  else
    let nodes := toks.map (fun tk => Node.mk tk.id (String.mk (stripChars tk.rawLabel)))
    let edges := scanEdges mermaid_code.data
    some (ParsedStructure.mk nodes edges nodes.length edges.length)

/-- Modelled from the spec: the central aggregate `GRDStructure` of the
`braid/parser.py` module, which is referenced by src/braid/optimizer.py
but is not under src/. Per spec §3 it holds the deduplicated node list
(insertion order preserved) and the edge list in match order;
`start_nodes`, `end_nodes` and the execution order are derived. -/
structure GRDStructure where
  nodes : List Node
  edges : List Edge
deriving DecidableEq, Repr

/-- Modelled from the spec: start nodes are the nodes with no incoming
directed edge (spec §3, §4.2 — undirected edges do not affect the
in/out-degree computation), in node insertion order. -/
def GRDStructure.start_nodes (G : GRDStructure) : List Node :=
  G.nodes.filter (fun n => !(G.edges.any (fun e => e.directed && e.tgt == n.id)))

/-- Modelled from the spec: end nodes are the nodes with no outgoing
directed edge (spec §3, §4.2), in node insertion order. -/
def GRDStructure.end_nodes (G : GRDStructure) : List Node :=
  G.nodes.filter (fun n => !(G.edges.any (fun e => e.directed && e.src == n.id)))

/-- Modelled from the spec: enqueue the directed successors of `x`
(in edge insertion order) that are declared node ids and are present
neither in the result so far nor in the queue — spec §4.4 together with
§5's bound that each node is enqueued at most once, and Scenario C's
rule that an edge target that is not a declared node is never visited. -/
def enqueueSuccs (edges : List Edge) (ids res : List String) (x : String)
    (q : List String) : List String :=
  edges.foldl
    (fun acc e =>
      if e.directed = true ∧ e.src = x ∧ e.tgt ∈ ids ∧ e.tgt ∉ res ∧ e.tgt ∉ acc
      then acc ++ [e.tgt] else acc) q

/-- Modelled from the spec: the breadth-first traversal loop of §4.4 —
pop the earliest-inserted frontier node, append it to the result if not
already present, enqueue its eligible directed successors. The fuel is
the spec §5 iteration bound (each node enqueued at most once, so the
number of pops never exceeds the initial queue length plus the number
of declared nodes); with that fuel the loop always runs to completion. -/
def bfsLoop (edges : List Edge) (ids : List String) :
    Nat → List String → List String → List String
  | 0, _, res => res
  | _ + 1, [], res => res
  | fuel + 1, x :: q, res =>
    let res' := if x ∈ res then res else res ++ [x]
    bfsLoop edges ids fuel (enqueueSuccs edges ids res' x q) res'

/-- Modelled from the spec: `GRDStructure.get_execution_order` (§4.4,
§6) — a breadth-first traversal seeded with all start nodes in
insertion order, deduplicating visits; empty whenever `start_nodes` is
empty. -/
def GRDStructure.get_execution_order (G : GRDStructure) : List String :=
  bfsLoop G.edges (G.nodes.map Node.id)
    (G.nodes.length + (G.start_nodes).length)
    ((G.start_nodes).map Node.id) []

/-- Modelled from the spec: the single error kind of the engine —
`MalformedDiagram`, raised by `parse` when no node or edge syntax is
recognized anywhere in the text (spec §4.2, §7). -/
structure MalformedDiagram where
deriving DecidableEq, Repr

/-- Modelled from the spec: `MermaidParser.validate` of braid/parser.py
(not under src/) — the §4.3 acceptance rules, returning the boolean and
the first failed rule's reason. The rules are the ones implemented by
`validate_mermaid_syntax` in src/braid/utils.py. -/
def MermaidParser.validate (text : String) : Bool × Option String :=
  if !mlSearch text.data then
    (false, some "missing graph or flowchart declaration")
  else if !hasPattern text.data then
    (false, some "no node or edge pattern found")
  else (true, none)

/-- First occurrence of each node identifier wins; later redeclarations
are dropped (spec §4.2). `seen` is the set of identifiers already kept. -/
def dedupNodesGo (seen : List String) : List Node → List Node
  | [] => []
  | n :: rest =>
    if n.id ∈ seen then dedupNodesGo seen rest
    else n :: dedupNodesGo (n.id :: seen) rest

/-- Deduplicate a node list by identifier, keeping the first
occurrence's label (spec §4.2). -/
def dedupNodes (l : List Node) : List Node := dedupNodesGo [] l

/-- Modelled from the spec: `MermaidParser.parse` of braid/parser.py
(not under src/) — run the §4.1 tokenizer (the regex patterns of
src/braid/utils.py), fail with `MalformedDiagram` exactly when both
match streams are empty, otherwise build the `GRDStructure` with
identifier-deduplicated nodes (first label wins, labels stripped as in
utils.py) and the edges in match order (spec §4.2). -/
def MermaidParser.parse (text : String) : Except MalformedDiagram GRDStructure :=
  let nodeToks := scanNodes text.data
  let edges := scanEdges text.data
  if nodeToks = [] ∧ edges = [] then Except.error (MalformedDiagram.mk)
  else
    Except.ok
      (GRDStructure.mk
        (dedupNodes (nodeToks.map (fun tk =>
          Node.mk tk.id (String.mk (stripChars tk.rawLabel)))))
        edges)

/-- Embedding of `GRDMetrics.structural_validity`
(src/braid/optimizer.py:12-22): 1.0 if the validator accepts, else 0.0. -/
def structural_validity (grd : String) : ℚ :=
  if (MermaidParser.validate grd).1 then 1.0 else 0.0

/-- Embedding of `GRDMetrics.completeness`
(src/braid/optimizer.py:24-53): the additive score, capped at 1.0. -/
def completeness (grd_structure : GRDStructure) : ℚ :=
  let score : ℚ := 0.0
  let score := if grd_structure.start_nodes ≠ [] then score + 0.3 else score
  let score := if grd_structure.end_nodes ≠ [] then score + 0.3 else score
  let node_count := grd_structure.nodes.length
  let score :=
    if 3 ≤ node_count ∧ node_count ≤ 20 then score + 0.2
    else if node_count > 20 then score + 0.1
    else score
  let score := if grd_structure.edges.length > 0 then score + 0.2 else score
  min score 1.0

/-- Embedding of `GRDMetrics.execution_traceability`
(src/braid/optimizer.py:55-84). Python's `set(execution_order)` and
`{node.id for node in nodes}` are modelled by `List.dedup` (only their
cardinalities are consumed). -/
def execution_traceability (grd_structure : GRDStructure) : ℚ :=
  let execution_order := grd_structure.get_execution_order
  if execution_order = [] then 0.0
  else
    let reachable_nodes := execution_order.dedup
    let all_nodes := (grd_structure.nodes.map Node.id).dedup
    if all_nodes = [] then 0.0
    else
      let reachability_score : ℚ :=
        (reachable_nodes.length : ℚ) / (all_nodes.length : ℚ)
      let cycle_score : ℚ :=
        if execution_order.length = grd_structure.nodes.length then 1.0 else 0.5
      (reachability_score + cycle_score) / 2.0

/-- Embedding of `GRDMetrics.overall_quality`
(src/braid/optimizer.py:86-125): short-circuit on validity 0.0; parse
if no structure was supplied, converting a parse failure into 0.0; then
the weighted combination. -/
def overall_quality (grd : String) (grd_structure : Option GRDStructure) : ℚ :=
  let validity_score := structural_validity grd
  if validity_score = 0.0 then 0.0
  else
    match grd_structure with
    | some s =>
      validity_score * 0.4 + completeness s * 0.3 + execution_traceability s * 0.3
    | none =>
      match MermaidParser.parse grd with
      | Except.error _ => 0.0
      | Except.ok s =>
        validity_score * 0.4 + completeness s * 0.3 + execution_traceability s * 0.3

/-! ### The multiline keyword search, line by line

`re.MULTILINE` makes `^` anchor at the start of the text and after every
newline; `\s*` may then cross further newlines. The following lemmas show
this search accepts exactly the texts one of whose lines starts, after
leading whitespace, with `graph` or `flowchart`. -/

theorem graph_no_newline : ∀ ch ∈ "graph".data, ch ≠ '\n' := by decide

theorem flowchart_no_newline : ∀ ch ∈ "flowchart".data, ch ≠ '\n' := by decide

theorem keywordFrom_nil : keywordFrom [] = false := by decide

theorem mlSearch_nil : mlSearch [] = false := by decide

theorem keywordFrom_cons_space (c : Char) (cs : List Char)
    (h : isSpaceChar c = true) : keywordFrom (c :: cs) = keywordFrom cs := by
  simp [keywordFrom, List.dropWhile_cons, h]

theorem keywordFrom_cons_not_space (c : Char) (cs : List Char)
    (h : isSpaceChar c = false) :
    keywordFrom (c :: cs) =
      (litMatch "graph".data (c :: cs) || litMatch "flowchart".data (c :: cs)) := by
  simp [keywordFrom, List.dropWhile_cons, h]

theorem litMatch_firstLine :
    ∀ pat : List Char, (∀ ch ∈ pat, ch ≠ '\n') →
      ∀ cs : List Char, litMatch pat cs = litMatch pat (splitLinesCore cs).1 := by
  intro pat
  induction pat with
  | nil => intro _ cs; simp [litMatch]
  | cons p ps ih =>
    intro hp cs
    cases cs with
    | nil => simp [splitLinesCore]
    | cons c cs' =>
      by_cases hc : c = '\n'
      · subst hc
        have hpn : (p == '\n') = false :=
          beq_eq_false_iff_ne.mpr (hp p (List.mem_cons_self _ _))
        simp [splitLinesCore, litMatch, hpn]
      · have := ih (fun ch h => hp ch (List.mem_cons_of_mem _ h)) cs'
        simp [splitLinesCore, litMatch, hc, this]

theorem keywordFrom_firstLine_imp :
    ∀ cs : List Char,
      keywordFrom (splitLinesCore cs).1 = true → keywordFrom cs = true := by
  intro cs
  induction cs with
  | nil => simp [splitLinesCore]
  | cons c cs' ih =>
    by_cases hc : c = '\n'
    · subst hc
      intro h
      rw [show (splitLinesCore ('\n' :: cs')).1 = [] by simp [splitLinesCore]] at h
      rw [keywordFrom_nil] at h
      exact absurd h (by simp)
    · by_cases hs : isSpaceChar c = true
      · intro h
        rw [show (splitLinesCore (c :: cs')).1 = c :: (splitLinesCore cs').1 by
              simp [splitLinesCore, hc]] at h
        rw [keywordFrom_cons_space c _ hs] at h
        rw [keywordFrom_cons_space c _ hs]
        exact ih h
      · have hs' : isSpaceChar c = false := by
          cases hx : isSpaceChar c
          · rfl
          · exact absurd hx hs
        intro h
        rw [show (splitLinesCore (c :: cs')).1 = c :: (splitLinesCore cs').1 by
              simp [splitLinesCore, hc]] at h
        rw [keywordFrom_cons_not_space c _ hs'] at h ⊢
        rw [litMatch_firstLine "graph".data graph_no_newline (c :: cs'),
            litMatch_firstLine "flowchart".data flowchart_no_newline (c :: cs')]
        rw [show (splitLinesCore (c :: cs')).1 = c :: (splitLinesCore cs').1 by
              simp [splitLinesCore, hc]]
        exact h

theorem keywordFrom_imp_lines :
    ∀ cs : List Char, keywordFrom cs = true →
      ((splitLinesCore cs).1 :: (splitLinesCore cs).2).any keywordFrom = true := by
  intro cs
  induction cs with
  | nil => intro h; rw [keywordFrom_nil] at h; exact absurd h (by simp)
  | cons c cs' ih =>
    by_cases hc : c = '\n'
    · subst hc
      intro h
      rw [keywordFrom_cons_space '\n' _ (by decide)] at h
      have h2 := ih h
      simp only [List.any_cons] at h2
      rw [show splitLinesCore ('\n' :: cs')
            = ([], (splitLinesCore cs').1 :: (splitLinesCore cs').2) from by
            simp [splitLinesCore]]
      simp only [List.any_cons, keywordFrom_nil, Bool.false_or]
      exact h2
    · by_cases hs : isSpaceChar c = true
      · intro h
        rw [keywordFrom_cons_space c _ hs] at h
        have := ih h
        simp only [splitLinesCore, List.any_cons, if_neg hc] at this ⊢
        rw [keywordFrom_cons_space c _ hs]
        exact this
      · have hs' : isSpaceChar c = false := by
          cases hx : isSpaceChar c
          · rfl
          · exact absurd hx hs
        intro h
        rw [keywordFrom_cons_not_space c _ hs'] at h
        rw [litMatch_firstLine "graph".data graph_no_newline (c :: cs'),
            litMatch_firstLine "flowchart".data flowchart_no_newline (c :: cs')] at h
        simp only [splitLinesCore, if_neg hc, List.any_cons] at h ⊢
        rw [keywordFrom_cons_not_space c _ hs']
        rw [h]
        simp

theorem mlSearchGo_eq_lines :
    ∀ cs : List Char, mlSearchGo cs = ((splitLinesCore cs).2).any keywordFrom := by
  intro cs
  induction cs with
  | nil => rfl
  | cons c cs' ih =>
    by_cases hc : c = '\n'
    · subst hc
      simp only [mlSearchGo, splitLinesCore, if_pos rfl, List.any_cons]
      rw [ih]
      cases hk : keywordFrom cs'
      · have h1 : keywordFrom (splitLinesCore cs').1 = false := by
          cases hx : keywordFrom (splitLinesCore cs').1
          · rfl
          · rw [keywordFrom_firstLine_imp cs' hx] at hk; exact absurd hk (by simp)
        simp [h1]
      · have := keywordFrom_imp_lines cs' hk
        simp only [List.any_cons] at this
        simp [this]
    · have hcb : (c == '\n') = false := beq_eq_false_iff_ne.mpr hc
      simp only [mlSearchGo, splitLinesCore, if_neg hc, hcb, Bool.false_and,
        Bool.false_or]
      exact ih

theorem mlSearch_eq_lines :
    ∀ cs : List Char, mlSearch cs = (splitLines cs).any keywordFrom := by
  intro cs
  unfold mlSearch splitLines
  rw [mlSearchGo_eq_lines]
  cases hk : keywordFrom cs
  · have h1 : keywordFrom (splitLinesCore cs).1 = false := by
      cases hx : keywordFrom (splitLinesCore cs).1
      · rfl
      · rw [keywordFrom_firstLine_imp cs hx] at hk; exact absurd hk (by simp)
    simp [h1]
  · have := keywordFrom_imp_lines cs hk
    simp only [List.any_cons] at this
    simp [this]

theorem validate_fst_eq_utils (s : String) :
    (MermaidParser.validate s).1 = validate_mermaid_syntax s := by
  by_cases h1 : mlSearch s.data
  · by_cases h2 : hasPattern s.data
    · have hne : s.data.isEmpty = false := by
        cases hd : s.data
        · rw [hd] at h1; rw [mlSearch_nil] at h1; exact absurd h1 (by simp)
        · simp
      simp [MermaidParser.validate, validate_mermaid_syntax, h1, h2, hne]
    · simp [MermaidParser.validate, validate_mermaid_syntax, h1, h2]
  · simp [MermaidParser.validate, validate_mermaid_syntax, h1]

/-! ### Graph analyzer lemmas: the execution order visits declared nodes
only, and visits each at most once. -/

theorem nodup_append_single {α : Type} (l : List α) (a : α)
    (ha : a ∉ l) (hl : l.Nodup) : (l ++ [a]).Nodup := by
  refine List.Nodup.append hl (List.nodup_singleton a) ?_
  intro x hx hx'
  rw [List.mem_singleton] at hx'
  subst hx'
  exact ha hx

theorem enqueueSuccs_mem (edges : List Edge) (ids res : List String) (x : String) :
    ∀ (q : List String) (a : String),
      a ∈ enqueueSuccs edges ids res x q → a ∈ q ∨ a ∈ ids := by
  unfold enqueueSuccs
  induction edges with
  | nil => intro q a h; exact Or.inl h
  | cons e es ih =>
    intro q a h
    simp only [List.foldl_cons] at h
    rcases ih _ a h with hq | hid
    · by_cases hcond :
        (e.directed = true ∧ e.src = x ∧ e.tgt ∈ ids ∧ e.tgt ∉ res ∧ e.tgt ∉ q)
      · rw [if_pos hcond] at hq
        rcases List.mem_append.mp hq with h1 | h2
        · exact Or.inl h1
        · rw [List.mem_singleton] at h2; subst h2; exact Or.inr hcond.2.2.1
      · rw [if_neg hcond] at hq; exact Or.inl hq
    · exact Or.inr hid

theorem bfsLoop_subset (edges : List Edge) (ids : List String) :
    ∀ (fuel : Nat) (q res : List String),
      (∀ a ∈ q, a ∈ ids) → (∀ a ∈ res, a ∈ ids) →
      ∀ a ∈ bfsLoop edges ids fuel q res, a ∈ ids := by
  intro fuel
  induction fuel with
  | zero =>
    intro q res _ hres a ha
    simp only [bfsLoop] at ha
    exact hres a ha
  | succ fuel ih =>
    intro q res hq hres a ha
    cases q with
    | nil =>
      simp only [bfsLoop] at ha
      exact hres a ha
    | cons x xq =>
      simp only [bfsLoop] at ha
      have hres'mem : ∀ b ∈ (if x ∈ res then res else res ++ [x]), b ∈ ids := by
        intro b hb
        by_cases hx : x ∈ res
        · rw [if_pos hx] at hb; exact hres b hb
        · rw [if_neg hx] at hb
          rcases List.mem_append.mp hb with h1 | h2
          · exact hres b h1
          · rw [List.mem_singleton] at h2; subst h2
            exact hq b (List.mem_cons_self _ _)
      refine ih _ _ ?_ hres'mem a ha
      intro b hb
      rcases enqueueSuccs_mem edges ids _ x xq b hb with h1 | h2
      · exact hq b (List.mem_cons_of_mem _ h1)
      · exact h2

theorem bfsLoop_nodup (edges : List Edge) (ids : List String) :
    ∀ (fuel : Nat) (q res : List String), res.Nodup →
      (bfsLoop edges ids fuel q res).Nodup := by
  intro fuel
  induction fuel with
  | zero => intro q res h; simpa only [bfsLoop] using h
  | succ fuel ih =>
    intro q res h
    cases q with
    | nil => simpa only [bfsLoop] using h
    | cons x xq =>
      simp only [bfsLoop]
      apply ih
      by_cases hx : x ∈ res
      · rw [if_pos hx]; exact h
      · rw [if_neg hx]; exact nodup_append_single res x hx h

theorem get_execution_order_subset (G : GRDStructure) :
    ∀ a ∈ G.get_execution_order, a ∈ G.nodes.map Node.id := by
  intro a ha
  unfold GRDStructure.get_execution_order at ha
  refine bfsLoop_subset G.edges (G.nodes.map Node.id) _ _ _ ?_ ?_ a ha
  · intro b hb
    rcases List.mem_map.mp hb with ⟨n, hn, rfl⟩
    exact List.mem_map_of_mem _ (List.mem_of_mem_filter hn)
  · intro b hb
    exact absurd hb (List.not_mem_nil b)

theorem get_execution_order_nodup (G : GRDStructure) :
    G.get_execution_order.Nodup := by
  unfold GRDStructure.get_execution_order
  exact bfsLoop_nodup _ _ _ _ _ List.nodup_nil

/-! ### Graph builder lemmas: node deduplication keeps the first
occurrence of each identifier. -/

theorem dedupNodesGo_id_not_seen :
    ∀ (l : List Node) (seen : List String) (n : Node),
      n ∈ dedupNodesGo seen l → n.id ∉ seen := by
  intro l
  induction l with
  | nil => intro seen n h; exact absurd h (List.not_mem_nil n)
  | cons m rest ih =>
    intro seen n h
    simp only [dedupNodesGo] at h
    by_cases hm : m.id ∈ seen
    · rw [if_pos hm] at h; exact ih seen n h
    · rw [if_neg hm] at h
      rcases List.mem_cons.mp h with rfl | h2
      · exact hm
      · intro hcon
        exact ih _ n h2 (List.mem_cons_of_mem _ hcon)

theorem dedupNodesGo_nodup :
    ∀ (l : List Node) (seen : List String),
      ((dedupNodesGo seen l).map Node.id).Nodup := by
  intro l
  induction l with
  | nil => intro seen; simp [dedupNodesGo]
  | cons m rest ih =>
    intro seen
    simp only [dedupNodesGo]
    by_cases hm : m.id ∈ seen
    · rw [if_pos hm]; exact ih seen
    · rw [if_neg hm]
      simp only [List.map_cons, List.nodup_cons]
      constructor
      · intro hcon
        rcases List.mem_map.mp hcon with ⟨n, hn, hid⟩
        have := dedupNodesGo_id_not_seen rest (m.id :: seen) n hn
        exact this (by rw [hid]; exact List.mem_cons_self _ _)
      · exact ih _

theorem dedupNodesGo_find? :
    ∀ (l : List Node) (seen : List String) (n : Node),
      n ∈ dedupNodesGo seen l →
      l.find? (fun m => m.id == n.id) = some n := by
  intro l
  induction l with
  | nil => intro seen n h; exact absurd h (List.not_mem_nil n)
  | cons m rest ih =>
    intro seen n h
    have hnot := dedupNodesGo_id_not_seen _ _ _ h
    simp only [dedupNodesGo] at h
    by_cases hm : m.id ∈ seen
    · rw [if_pos hm] at h
      have hne : (m.id == n.id) = false := by
        apply beq_eq_false_iff_ne.mpr
        intro hcon
        exact hnot (hcon ▸ hm)
      rw [List.find?_cons_of_neg _ (by simp [hne])]
      exact ih _ _ h
    · rw [if_neg hm] at h
      rcases List.mem_cons.mp h with rfl | h2
      · rw [List.find?_cons_of_pos _ (by simp)]
      · have hn2 := dedupNodesGo_id_not_seen _ _ _ h2
        have hne : (m.id == n.id) = false := by
          apply beq_eq_false_iff_ne.mpr
          intro hcon
          exact hn2 (by rw [← hcon]; exact List.mem_cons_self _ _)
        rw [List.find?_cons_of_neg _ (by simp [hne])]
        exact ih _ _ h2

/-! ### Score bounds. -/

theorem completeness_nonneg (G : GRDStructure) : 0 ≤ completeness G := by
  unfold completeness
  refine le_min ?_ (by norm_num)
  split_ifs <;> norm_num

theorem completeness_le_one (G : GRDStructure) : completeness G ≤ 1 := by
  unfold completeness
  exact le_trans (min_le_right _ _) (by norm_num)

theorem reach_nonneg (G : GRDStructure) :
    (0 : ℚ) ≤ (G.get_execution_order.dedup.length : ℚ) /
      (((G.nodes.map Node.id).dedup).length : ℚ) := by
  apply div_nonneg <;> positivity

theorem reach_le_one (G : GRDStructure)
    (h : (G.nodes.map Node.id).dedup ≠ []) :
    (G.get_execution_order.dedup.length : ℚ) /
      (((G.nodes.map Node.id).dedup).length : ℚ) ≤ 1 := by
  have hsub : G.get_execution_order.dedup ⊆ (G.nodes.map Node.id).dedup := by
    intro a ha
    rw [List.mem_dedup] at ha ⊢
    exact get_execution_order_subset G a ha
  have hnd : G.get_execution_order.dedup.Nodup := List.nodup_dedup _
  have hlen : G.get_execution_order.dedup.length ≤
      ((G.nodes.map Node.id).dedup).length :=
    (List.subperm_of_subset hnd hsub).length_le
  have hkpos : (0 : ℚ) < (((G.nodes.map Node.id).dedup).length : ℚ) := by
    have h1 : 0 < ((G.nodes.map Node.id).dedup).length := List.length_pos.mpr h
    exact_mod_cast h1
  rw [div_le_one hkpos]
  exact_mod_cast hlen

theorem execution_traceability_nonneg (G : GRDStructure) :
    0 ≤ execution_traceability G := by
  have hr := reach_nonneg G
  unfold execution_traceability
  dsimp only
  split_ifs <;> [norm_num; norm_num; linarith; linarith]

theorem execution_traceability_le_one (G : GRDStructure) :
    execution_traceability G ≤ 1 := by
  unfold execution_traceability
  dsimp only
  split_ifs with h1 h2 h3
  · norm_num
  · norm_num
  · have hr := reach_le_one G h2
    linarith
  · have hr := reach_le_one G h2
    linarith

theorem structural_validity_cases (t : String) :
    structural_validity t = 0.0 ∨ structural_validity t = 1.0 := by
  unfold structural_validity
  split_ifs
  · right; rfl
  · left; rfl

theorem overall_quality_mem (t : String) (st : Option GRDStructure) :
    0 ≤ overall_quality t st ∧ overall_quality t st ≤ 1 := by
  unfold overall_quality
  dsimp only
  split_ifs with h1
  · norm_num
  · have hv : structural_validity t = 1.0 := by
      rcases structural_validity_cases t with h | h
      · exact absurd h h1
      · exact h
    cases st with
    | some s =>
      have c1 := completeness_nonneg s
      have c2 := completeness_le_one s
      have t1 := execution_traceability_nonneg s
      have t2 := execution_traceability_le_one s
      rw [hv]
      constructor <;> [nlinarith; nlinarith]
    | none =>
      cases hp : MermaidParser.parse t with
      | error e =>
        dsimp only
        norm_num
      | ok s =>
        dsimp only
        have c1 := completeness_nonneg s
        have c2 := completeness_le_one s
        have t1 := execution_traceability_nonneg s
        have t2 := execution_traceability_le_one s
        rw [hv]
        constructor <;> [nlinarith; nlinarith]

/-! ### The claims. -/

/-- C1: for every input text and optional pre-parsed structure,
`overall_quality` returns 0.0 when `structural_validity` of the text is
0.0 (the parser is not consulted: the short-circuit branch of the
definition mentions no parse); when validity is 1.0 and no structure was
supplied it returns 0.0 when parsing fails (the `MalformedDiagram`
failure is absorbed into the score, not propagated — the embedded
function is total); otherwise it returns exactly
0.4·validity + 0.3·completeness + 0.3·traceability of the structure used. -/
theorem overall_quality_spec (grd : String) (st : Option GRDStructure) :
    (structural_validity grd = 0.0 → overall_quality grd st = 0.0) ∧
    (structural_validity grd = 1.0 → st = none →
      MermaidParser.parse grd = Except.error MalformedDiagram.mk →
      overall_quality grd st = 0.0) ∧
    (∀ s : GRDStructure, structural_validity grd = 1.0 → st = some s →
      overall_quality grd st =
        0.4 * structural_validity grd + 0.3 * completeness s +
          0.3 * execution_traceability s) ∧
    (∀ s : GRDStructure, structural_validity grd = 1.0 → st = none →
      MermaidParser.parse grd = Except.ok s →
      overall_quality grd st =
        0.4 * structural_validity grd + 0.3 * completeness s +
          0.3 * execution_traceability s) := by
  refine ⟨?_, ?_, ?_, ?_⟩
  · intro h0
    unfold overall_quality
    dsimp only
    rw [if_pos h0]
  · intro h1 hnone hperr
    subst hnone
    unfold overall_quality
    dsimp only
    rw [if_neg (by rw [h1]; norm_num), hperr]
  · intro s h1 hsome
    subst hsome
    unfold overall_quality
    dsimp only
    rw [if_neg (by rw [h1]; norm_num)]
    rw [h1]
    ring
  · intro s h1 hnone hpok
    subst hnone
    unfold overall_quality
    dsimp only
    rw [if_neg (by rw [h1]; norm_num), hpok]
    dsimp only
    rw [h1]
    ring

/-- Concrete instantiation of `overall_quality_spec`: an unaccepted text
scores 0.0, and a valid parseable text scores the weighted combination. -/
theorem overall_quality_spec_witness :
    overall_quality "x" none = 0.0 ∧
    overall_quality "graph\nA[s] --> B" none =
      0.4 * structural_validity "graph\nA[s] --> B" +
        0.3 * completeness (GRDStructure.mk [Node.mk "A" "s"] []) +
        0.3 * execution_traceability (GRDStructure.mk [Node.mk "A" "s"] []) :=
  ⟨(overall_quality_spec "x" none).1
     (by
       have hb : (MermaidParser.validate "x").1 = false := by decide
       simp [structural_validity, hb]),
   (overall_quality_spec "graph\nA[s] --> B" none).2.2.2
     (GRDStructure.mk [Node.mk "A" "s"] [])
     (by
       have hb : (MermaidParser.validate "graph\nA[s] --> B").1 = true := by decide
       simp [structural_validity, hb])
     rfl rfl⟩

/-- C2: `completeness` is the capped sum of 0.3 for a non-empty start-node
set, 0.3 for a non-empty end-node set, 0.2 for a node count in [3, 20]
(0.1 above 20, nothing below 3), and 0.2 for a positive edge count. -/
theorem completeness_formula (G : GRDStructure) :
    completeness G =
      min ((if G.start_nodes ≠ [] then (0.3 : ℚ) else 0) +
           (if G.end_nodes ≠ [] then (0.3 : ℚ) else 0) +
           (if 3 ≤ G.nodes.length ∧ G.nodes.length ≤ 20 then (0.2 : ℚ)
            else if G.nodes.length > 20 then (0.1 : ℚ) else 0) +
           (if G.edges.length > 0 then (0.2 : ℚ) else 0)) 1.0 := by
  unfold completeness
  dsimp only
  split_ifs <;> norm_num [min_def]

/-- C3: for every `GRDStructure` whose node identifiers are pairwise
distinct (the data-model invariant — `parse` only ever produces such
structures), `execution_traceability` is 0.0 when the execution order
is empty or the node set is empty, and otherwise averages the
reachability quotient (execution-order size over node count — the code
divides the sizes of the corresponding id sets, which coincide because
the order is duplicate-free and the ids are distinct) with the cycle
indicator (1.0 when the order length equals the node count, else 0.5). -/
theorem execution_traceability_formula (G : GRDStructure)
    (h : (G.nodes.map Node.id).Nodup) :
    execution_traceability G =
      if G.get_execution_order = [] ∨ G.nodes = [] then 0.0
      else
        ((G.get_execution_order.length : ℚ) / (G.nodes.length : ℚ) +
          (if G.get_execution_order.length = G.nodes.length then (1.0 : ℚ)
           else 0.5)) / 2.0 := by
  have hdo : G.get_execution_order.dedup = G.get_execution_order :=
    List.dedup_eq_self.mpr (get_execution_order_nodup G)
  have hdn : (G.nodes.map Node.id).dedup = G.nodes.map Node.id :=
    List.dedup_eq_self.mpr h
  unfold execution_traceability
  dsimp only
  rw [hdo, hdn]
  by_cases h1 : G.get_execution_order = []
  · rw [if_pos h1, if_pos (Or.inl h1)]
  · rw [if_neg h1]
    by_cases h2 : G.nodes = []
    · rw [if_pos (by rw [h2]; rfl), if_pos (Or.inr h2)]
    · have hm : ¬(G.nodes.map Node.id = []) := by
        intro hcon
        exact h2 (List.map_eq_nil_iff.mp hcon)
      rw [if_neg hm, if_neg (not_or.mpr ⟨h1, h2⟩), List.length_map]

/-- Concrete instantiation of `execution_traceability_formula` on a
one-node structure with duplicate-free identifiers. -/
theorem execution_traceability_formula_witness :
    execution_traceability (GRDStructure.mk [Node.mk "A" "x"] []) =
      if (GRDStructure.mk [Node.mk "A" "x"] []).get_execution_order = [] ∨
          (GRDStructure.mk [Node.mk "A" "x"] []).nodes = [] then 0.0
      else
        (((GRDStructure.mk [Node.mk "A" "x"] []).get_execution_order.length : ℚ) /
            ((GRDStructure.mk [Node.mk "A" "x"] []).nodes.length : ℚ) +
          (if (GRDStructure.mk [Node.mk "A" "x"] []).get_execution_order.length =
              (GRDStructure.mk [Node.mk "A" "x"] []).nodes.length then (1.0 : ℚ)
           else 0.5)) / 2.0 :=
  execution_traceability_formula (GRDStructure.mk [Node.mk "A" "x"] []) (by decide)

/-- C4: `structural_validity` is 1.0 exactly when some line of the text
starts, after leading whitespace, with `graph` or `flowchart` AND the
text contains a node-declaration or edge-connector pattern; it is
always either 0.0 or 1.0 (and, being a total function, never fails). -/
theorem structural_validity_spec (t : String) :
    (structural_validity t = 1.0 ↔
      ((splitLines t.data).any keywordFrom = true ∧ hasPattern t.data = true)) ∧
    (structural_validity t = 0.0 ∨ structural_validity t = 1.0) := by
  refine ⟨?_, structural_validity_cases t⟩
  have hb : (MermaidParser.validate t).1 = (mlSearch t.data && hasPattern t.data) := by
    unfold MermaidParser.validate
    by_cases h1 : mlSearch t.data <;> by_cases h2 : hasPattern t.data <;>
      simp [h1, h2]
  have hsv : structural_validity t = 1.0 ↔ (MermaidParser.validate t).1 = true := by
    unfold structural_validity
    split_ifs with hv
    · simp [hv]
    · constructor
      · intro h; exact absurd h (by norm_num)
      · intro h; exact absurd h hv
  constructor
  · intro h
    have hq := hsv.mp h
    rw [hb] at hq
    rw [Bool.and_eq_true] at hq
    obtain ⟨m, p⟩ := hq
    exact ⟨by rw [← mlSearch_eq_lines]; exact m, p⟩
  · rintro ⟨hl, hp⟩
    apply hsv.mpr
    rw [hb]
    rw [Bool.and_eq_true]
    refine ⟨?_, hp⟩
    rw [mlSearch_eq_lines]
    exact hl


/-- C5 (amended): on Scenario A's input the validity is 1.0, the parsed
node list is Start, Step1, Answer with their labels, the single
recognized edge is Step1 --> Answer (the edge pattern requires an
identifier immediately before the connector, so the bracketed
`Start[Problem Analysis] --> Step1` line yields no edge), the start
nodes are Start and Step1, the end nodes are Start and Answer, the
execution order is [Start, Step1, Answer], completeness is 1.0,
traceability is 1.0 and overall quality is 1.0. -/
theorem scenarioA_amended :
    structural_validity "flowchart TD\n    Start[Problem Analysis] --> Step1[Do Work]\n    Step1 --> Answer[Final Answer]" = 1.0 ∧
    MermaidParser.parse "flowchart TD\n    Start[Problem Analysis] --> Step1[Do Work]\n    Step1 --> Answer[Final Answer]" = Except.ok (GRDStructure.mk [Node.mk "Start" "Problem Analysis", Node.mk "Step1" "Do Work", Node.mk "Answer" "Final Answer"] [Edge.mk "Step1" "Answer" true]) ∧
    ((GRDStructure.mk [Node.mk "Start" "Problem Analysis", Node.mk "Step1" "Do Work", Node.mk "Answer" "Final Answer"] [Edge.mk "Step1" "Answer" true])).start_nodes.map Node.id = ["Start", "Step1"] ∧
    ((GRDStructure.mk [Node.mk "Start" "Problem Analysis", Node.mk "Step1" "Do Work", Node.mk "Answer" "Final Answer"] [Edge.mk "Step1" "Answer" true])).end_nodes.map Node.id = ["Start", "Answer"] ∧
    ((GRDStructure.mk [Node.mk "Start" "Problem Analysis", Node.mk "Step1" "Do Work", Node.mk "Answer" "Final Answer"] [Edge.mk "Step1" "Answer" true])).get_execution_order = ["Start", "Step1", "Answer"] ∧
    completeness (GRDStructure.mk [Node.mk "Start" "Problem Analysis", Node.mk "Step1" "Do Work", Node.mk "Answer" "Final Answer"] [Edge.mk "Step1" "Answer" true]) = 1.0 ∧
    execution_traceability (GRDStructure.mk [Node.mk "Start" "Problem Analysis", Node.mk "Step1" "Do Work", Node.mk "Answer" "Final Answer"] [Edge.mk "Step1" "Answer" true]) = 1.0 ∧
    overall_quality "flowchart TD\n    Start[Problem Analysis] --> Step1[Do Work]\n    Step1 --> Answer[Final Answer]" none = 1.0 := by
  have hv1 : (MermaidParser.validate "flowchart TD\n    Start[Problem Analysis] --> Step1[Do Work]\n    Step1 --> Answer[Final Answer]").1 = true := by decide
  have hv : structural_validity "flowchart TD\n    Start[Problem Analysis] --> Step1[Do Work]\n    Step1 --> Answer[Final Answer]" = 1.0 := by
    simp [structural_validity, hv1]
  have hpr : MermaidParser.parse "flowchart TD\n    Start[Problem Analysis] --> Step1[Do Work]\n    Step1 --> Answer[Final Answer]" = Except.ok (GRDStructure.mk [Node.mk "Start" "Problem Analysis", Node.mk "Step1" "Do Work", Node.mk "Answer" "Final Answer"] [Edge.mk "Step1" "Answer" true]) := rfl
  have hc : completeness (GRDStructure.mk [Node.mk "Start" "Problem Analysis", Node.mk "Step1" "Do Work", Node.mk "Answer" "Final Answer"] [Edge.mk "Step1" "Answer" true]) = 1.0 := by
    have e1 : ((GRDStructure.mk [Node.mk "Start" "Problem Analysis", Node.mk "Step1" "Do Work", Node.mk "Answer" "Final Answer"] [Edge.mk "Step1" "Answer" true])).start_nodes ≠ [] := by decide
    have e2 : ((GRDStructure.mk [Node.mk "Start" "Problem Analysis", Node.mk "Step1" "Do Work", Node.mk "Answer" "Final Answer"] [Edge.mk "Step1" "Answer" true])).end_nodes ≠ [] := by decide
    have e3 : 3 ≤ ((GRDStructure.mk [Node.mk "Start" "Problem Analysis", Node.mk "Step1" "Do Work", Node.mk "Answer" "Final Answer"] [Edge.mk "Step1" "Answer" true])).nodes.length ∧ ((GRDStructure.mk [Node.mk "Start" "Problem Analysis", Node.mk "Step1" "Do Work", Node.mk "Answer" "Final Answer"] [Edge.mk "Step1" "Answer" true])).nodes.length ≤ 20 := by decide
    have e4 : ((GRDStructure.mk [Node.mk "Start" "Problem Analysis", Node.mk "Step1" "Do Work", Node.mk "Answer" "Final Answer"] [Edge.mk "Step1" "Answer" true])).edges.length > 0 := by decide
    unfold completeness
    dsimp only
    rw [if_pos e1, if_pos e2, if_pos e3, if_pos e4]
    norm_num [min_def]
  have ht : execution_traceability (GRDStructure.mk [Node.mk "Start" "Problem Analysis", Node.mk "Step1" "Do Work", Node.mk "Answer" "Final Answer"] [Edge.mk "Step1" "Answer" true]) = 1.0 := by
    have e1 : ¬(((GRDStructure.mk [Node.mk "Start" "Problem Analysis", Node.mk "Step1" "Do Work", Node.mk "Answer" "Final Answer"] [Edge.mk "Step1" "Answer" true])).get_execution_order = []) := by decide
    have e2 : ¬((((GRDStructure.mk [Node.mk "Start" "Problem Analysis", Node.mk "Step1" "Do Work", Node.mk "Answer" "Final Answer"] [Edge.mk "Step1" "Answer" true])).nodes.map Node.id).dedup = []) := by decide
    have l1 : ((GRDStructure.mk [Node.mk "Start" "Problem Analysis", Node.mk "Step1" "Do Work", Node.mk "Answer" "Final Answer"] [Edge.mk "Step1" "Answer" true])).get_execution_order.dedup.length = 3 := by decide
    have l2 : ((((GRDStructure.mk [Node.mk "Start" "Problem Analysis", Node.mk "Step1" "Do Work", Node.mk "Answer" "Final Answer"] [Edge.mk "Step1" "Answer" true])).nodes.map Node.id).dedup).length = 3 := by decide
    have l3 : ((GRDStructure.mk [Node.mk "Start" "Problem Analysis", Node.mk "Step1" "Do Work", Node.mk "Answer" "Final Answer"] [Edge.mk "Step1" "Answer" true])).get_execution_order.length = ((GRDStructure.mk [Node.mk "Start" "Problem Analysis", Node.mk "Step1" "Do Work", Node.mk "Answer" "Final Answer"] [Edge.mk "Step1" "Answer" true])).nodes.length := by decide
    unfold execution_traceability
    dsimp only
    rw [if_neg e1, if_neg e2, if_pos l3, l1, l2]
    norm_num
  have ho : overall_quality "flowchart TD\n    Start[Problem Analysis] --> Step1[Do Work]\n    Step1 --> Answer[Final Answer]" none = 1.0 := by
    unfold overall_quality
    dsimp only
    rw [if_neg (by rw [hv]; norm_num), hpr]
    dsimp only
    rw [hv, hc, ht]
    norm_num
  exact ⟨hv, hpr, rfl, rfl, rfl, hc, ht, ho⟩

/-- C5 counterexample: on Scenario A's input the start-node set is not
the claimed singleton Start (Step1 also has no incoming directed edge,
because no `Start --> Step1` edge is recognized), and the end-node set
is not the claimed singleton Answer. -/
theorem scenarioA_start_end_cex :
    MermaidParser.parse "flowchart TD\n    Start[Problem Analysis] --> Step1[Do Work]\n    Step1 --> Answer[Final Answer]" = Except.ok (GRDStructure.mk [Node.mk "Start" "Problem Analysis", Node.mk "Step1" "Do Work", Node.mk "Answer" "Final Answer"] [Edge.mk "Step1" "Answer" true]) ∧
    ¬(((GRDStructure.mk [Node.mk "Start" "Problem Analysis", Node.mk "Step1" "Do Work", Node.mk "Answer" "Final Answer"] [Edge.mk "Step1" "Answer" true])).start_nodes.map Node.id = ["Start"]) ∧
    ¬(((GRDStructure.mk [Node.mk "Start" "Problem Analysis", Node.mk "Step1" "Do Work", Node.mk "Answer" "Final Answer"] [Edge.mk "Step1" "Answer" true])).end_nodes.map Node.id = ["Answer"]) :=
  ⟨rfl, by decide, by decide⟩

/-- C6: `parse` fails — necessarily with the unique `MalformedDiagram`
error — exactly when both the node-match stream and the edge-match
stream of the text are empty; otherwise a structure is returned. -/
theorem parse_malformed_iff (t : String) :
    (MermaidParser.parse t = Except.error MalformedDiagram.mk ↔
      (scanNodes t.data = [] ∧ scanEdges t.data = [])) ∧
    (∀ e : MalformedDiagram, MermaidParser.parse t = Except.error e →
      e = MalformedDiagram.mk) := by
  constructor
  · unfold MermaidParser.parse
    dsimp only
    split_ifs with h
    · exact ⟨fun _ => h, fun _ => rfl⟩
    · constructor
      · intro hcon
        exact hcon.elim
      · intro hboth
        exact absurd hboth h
  · intro e h
    cases e
    rfl

/-- Concrete instantiation of `parse_malformed_iff`: the empty text has
no node or edge matches, so `parse` reports `MalformedDiagram`. -/
theorem parse_malformed_iff_witness :
    MermaidParser.parse "" = Except.error MalformedDiagram.mk :=
  (parse_malformed_iff "").1.mpr ⟨rfl, rfl⟩

/-- C7: every structure produced by `parse` carries pairwise-distinct
node identifiers, and each of its nodes is exactly the first node match
with that identifier in the token stream (the first occurrence's label
wins; later redeclarations are dropped). -/
theorem parse_nodes_nodup_first_wins (t : String) (s : GRDStructure)
    (h : MermaidParser.parse t = Except.ok s) :
    (s.nodes.map Node.id).Nodup ∧
    ∀ n ∈ s.nodes,
      ((scanNodes t.data).map (fun tk =>
        Node.mk tk.id (String.mk (stripChars tk.rawLabel)))).find?
          (fun m => m.id == n.id) = some n := by
  have hs : s.nodes = dedupNodes ((scanNodes t.data).map (fun tk =>
      Node.mk tk.id (String.mk (stripChars tk.rawLabel)))) := by
    unfold MermaidParser.parse at h
    dsimp only at h
    split_ifs at h with hcond
    have h2 := Except.ok.inj h
    rw [← h2]
  rw [hs]
  exact ⟨dedupNodesGo_nodup _ _, fun n hn => dedupNodesGo_find? _ _ n hn⟩

/-- Concrete instantiation of `parse_nodes_nodup_first_wins`: parsing
`A[one] A[two]` keeps only the first declaration of `A`, whose label
`one` is the one found first in the token stream. -/
theorem parse_nodes_nodup_first_wins_witness :
    ((GRDStructure.mk [Node.mk "A" "one"] []).nodes.map Node.id).Nodup ∧
    ((scanNodes "A[one] A[two]".data).map (fun tk =>
      Node.mk tk.id (String.mk (stripChars tk.rawLabel)))).find?
        (fun m => m.id == (Node.mk "A" "one").id) = some (Node.mk "A" "one") :=
  ⟨(parse_nodes_nodup_first_wins "A[one] A[two]"
      (GRDStructure.mk [Node.mk "A" "one"] []) rfl).1,
   (parse_nodes_nodup_first_wins "A[one] A[two]"
      (GRDStructure.mk [Node.mk "A" "one"] []) rfl).2
     (Node.mk "A" "one") (by decide)⟩

/-- C8 (amended): a structure with zero nodes always has traceability
0.0, and has completeness 0.0 provided its edge list is also empty
(with zero nodes but a nonempty edge list, completeness is 0.2 — the
edge bonus still applies). -/
theorem zero_nodes_scores (G : GRDStructure) (h : G.nodes = []) :
    execution_traceability G = 0.0 ∧ (G.edges = [] → completeness G = 0.0) := by
  have hstart : G.start_nodes = [] := by
    unfold GRDStructure.start_nodes
    rw [h]
    rfl
  have hend : G.end_nodes = [] := by
    unfold GRDStructure.end_nodes
    rw [h]
    rfl
  constructor
  · have horder : G.get_execution_order = [] := by
      unfold GRDStructure.get_execution_order
      rw [hstart, h]
      rfl
    unfold execution_traceability
    dsimp only
    rw [if_pos horder]
  · intro he
    unfold completeness
    dsimp only
    rw [hstart, hend, h, he]
    norm_num [min_def]

/-- Concrete instantiation of `zero_nodes_scores` at the empty
structure. -/
theorem zero_nodes_scores_witness :
    execution_traceability (GRDStructure.mk [] []) = 0.0 ∧
    completeness (GRDStructure.mk [] []) = 0.0 :=
  ⟨(zero_nodes_scores (GRDStructure.mk [] []) rfl).1,
   (zero_nodes_scores (GRDStructure.mk [] []) rfl).2 rfl⟩

/-- C8 counterexample: a structure with zero nodes and one edge has
completeness 0.2, not the claimed 0.0 (the `edge count > 0` bonus does
not require any node). -/
theorem zero_nodes_completeness_cex :
    (GRDStructure.mk [] [Edge.mk "A" "B" true]).nodes = [] ∧
    completeness (GRDStructure.mk [] [Edge.mk "A" "B" true]) = 0.2 ∧
    (0.2 : ℚ) ≠ 0.0 := by
  refine ⟨rfl, ?_, by norm_num⟩
  unfold completeness
  dsimp only
  norm_num [GRDStructure.start_nodes, GRDStructure.end_nodes, min_def]

/-- C9: `completeness` and `execution_traceability` lie in [0, 1] for
every structure, and `overall_quality` lies in [0, 1] for every text
and optional structure. -/
theorem quality_scores_bounded :
    (∀ G : GRDStructure,
      (0 ≤ completeness G ∧ completeness G ≤ 1) ∧
      (0 ≤ execution_traceability G ∧ execution_traceability G ≤ 1)) ∧
    (∀ (t : String) (st : Option GRDStructure),
      0 ≤ overall_quality t st ∧ overall_quality t st ≤ 1) :=
  ⟨fun G => ⟨⟨completeness_nonneg G, completeness_le_one G⟩,
    ⟨execution_traceability_nonneg G, execution_traceability_le_one G⟩⟩,
   fun t st => overall_quality_mem t st⟩

/-- C10: the text `flowchart\nA -->` is accepted by the validator (its
only pattern match is the identifier `A` followed by a connector with
no target identifier), yet parsing recognizes no node declaration and
no edge, so `parse_grd_structure` returns the structure with zero nodes
and zero edges. -/
theorem validator_accepts_unparseable :
    validate_mermaid_syntax "flowchart\nA -->" = true ∧
    structural_validity "flowchart\nA -->" = 1.0 ∧
    parse_grd_structure "flowchart\nA -->" =
      some (ParsedStructure.mk [] [] 0 0) := by
  refine ⟨by decide, ?_, rfl⟩
  have hb : (MermaidParser.validate "flowchart\nA -->").1 = true := by decide
  simp [structural_validity, hb]
